import Mathlib

/-!
Verification of the line-of-sight calculator (`calculate_los.py`) and the
peak pair finder (`peak_pair_finder.py`).

Embedding conventions:
* Python floats are modelled as exact rationals (ℚ).
* The great-circle distance comes from the external `geopy.distance.geodesic`
  library; the engine is embedded parametrically in the returned distance
  (`distance_km`).
* `numpy.sqrt` is an external numerical routine; it is passed in as a
  function parameter `sqrt : ℚ → ℚ` (it only feeds the reported
  `los_limit_km` statistic, never the verdict).
* The elevation cache (a JSON object `Dict[str, float]`) is an association
  list from string keys to rationals; Python's `f"{x:.6f}"` formatting and
  banker's rounding (`round`) are modelled exactly on ℚ.
-/

namespace LosCalc

/-- Peak record, from `src/peak.py` (`name`, `lat`, `lon`, `elevation_m`). -/
structure Peak where
  name : String
  lat : ℚ
  lon : ℚ
  elevation_m : ℚ
deriving Repr, DecidableEq

instance : Inhabited Peak := ⟨⟨"", 0, 0, 0⟩⟩

/-- Python's `round`: round half to even (banker's rounding), as used by
both `round(lat / grid_resolution)` and the `:.6f` format specifier. -/
def roundHalfEven (x : ℚ) : ℤ :=
  if x - (⌊x⌋ : ℚ) < 1/2 then ⌊x⌋
  else if 1/2 < x - (⌊x⌋ : ℚ) then ⌊x⌋ + 1
  else if ⌊x⌋ % 2 = 0 then ⌊x⌋ else ⌊x⌋ + 1

/-- Left-pad a string with zeros to the given length. -/
def padZeros (s : String) (n : Nat) : String :=
  String.mk (List.replicate (n - s.length) '0') ++ s

/-- Python's `f"{x:.6f}"`: fixed-point rendering with six decimal digits
(round half to even; a negative value rounding to zero keeps its sign,
as IEEE signed zero does). -/
def format6 (x : ℚ) : String :=
  let n := roundHalfEven (x * 1000000)
  let m := n.natAbs
  let intPart := toString (m / 1000000)
  let fracPart := padZeros (toString (m % 1000000)) 6
  (if x < 0 then "-" else "") ++ intPart ++ "." ++ fracPart

/-- Cache coordinate key `f"{lat:.6f},{lon:.6f}"`. -/
def coordKey (lat lon : ℚ) : String :=
  format6 lat ++ "," ++ format6 lon

/-- Elevation cache: the JSON mapping from coordinate keys to elevations
(`Dict[str, float]`, built by `prefetch_elevations.py`). -/
abbrev Cache := List (String × ℚ)

/-- Constant `LOSCalculator.R_EARTH_KM`. -/
def R_EARTH_KM : ℚ := 6371

/-- Constant `LOSCalculator.REFRACTION_FACTOR` (= 4/3). -/
def REFRACTION_FACTOR : ℚ := 4 / 3

/-- Constant `LOSCalculator.NUM_SAMPLES`. -/
def NUM_SAMPLES : Nat := 200

/-- Cache grid spacing used by `LOSCalculator._get_elevations`
(`grid_resolution = 0.01`). -/
def grid_resolution : ℚ := 1 / 100

/-- Rounding of one coordinate to the nearest grid point, the expression
`round(lat / grid_resolution) * grid_resolution` inlined twice in
`LOSCalculator._get_elevations`. -/
def quantize (x : ℚ) : ℚ :=
  (roundHalfEven (x / grid_resolution) : ℚ) * grid_resolution

/-- One lookup step of `LOSCalculator._get_elevations`: round both
coordinates to the nearest grid point, try the quantized key, fall back to
the exact key, and finally to `0.0`. -/
def get_elevation (cache : Cache) (lat lon : ℚ) : ℚ :=
  let nearest_lat : ℚ := quantize lat
  let nearest_lon : ℚ := quantize lon
  match cache.lookup (coordKey nearest_lat nearest_lon) with
  | some e => e
  | none =>
    match cache.lookup (coordKey lat lon) with
    | some e => e
    | none => 0

/-- Body of `LOSCalculator._get_elevations`: map the lookup over the zipped
latitude/longitude sample lists. -/
def get_elevations (cache : Cache) (lats lons : List ℚ) : List ℚ :=
  (lats.zip lons).map (fun ll => get_elevation cache ll.1 ll.2)

/-- `numpy.linspace a b n`: `n` evenly spaced values from `a` to `b`
inclusive. -/
def linspace (a b : ℚ) (n : Nat) : List ℚ :=
  (List.range n).map (fun i : Nat => a + (b - a) * (i : ℚ) / ((n : ℚ) - 1))

/-- Elementwise `numpy` test `np.all(xs <= ys)`. -/
def allLe (xs ys : List ℚ) : Bool :=
  (xs.zipWith (fun a b => decide (a ≤ b)) ys).all (fun b => b)

/-- `LOSCalculator._compute_los_line`: sample distances, straight-line
interpolation between the endpoint elevations, and the (negative) earth
bulge term, summed elementwise. Returns `(distances, los_line)`. -/
def compute_los_line (e1 e2 distance_km : ℚ) : List ℚ × List ℚ :=
  let R_effective := REFRACTION_FACTOR * R_EARTH_KM
  let distances := linspace 0 distance_km NUM_SAMPLES
  let straight_line := distances.map (fun d => e1 + (e2 - e1) * (d / distance_km))
  let earth_bulge_m := distances.map
    (fun d => -(d * 1000) * ((distance_km - d) * 1000) / (2 * R_effective * 1000))
  let los_line := straight_line.zipWith (· + ·) earth_bulge_m
  (distances, los_line)

/-- Result fields computed by `LOSCalculator._calculate` (the
`VisibilityResult` of the spec). -/
structure VisibilityResult where
  distance_km : ℚ
  los_limit_km : ℚ
  distances : List ℚ
  terrain_array : List ℚ
  los_line : List ℚ
  curvature_drop_m : ℚ
  is_clear : Bool
deriving Repr

/-- `LOSCalculator._calculate`, embedded as a pure function. `distance_km`
is the geodesic distance returned by the external `geopy` call and `sqrt`
is the external `numpy.sqrt`. The terrain sample endpoints are overwritten
with the peaks' own elevations (`terrain[0]`, `terrain[-1]`). -/
def calculate (p1 p2 : Peak) (cache : Cache) (distance_km : ℚ)
    (sqrt : ℚ → ℚ) : VisibilityResult :=
  let los_limit_km := 3.57 * (sqrt p1.elevation_m + sqrt p2.elevation_m)
  let lats := linspace p1.lat p2.lat NUM_SAMPLES
  let lons := linspace p1.lon p2.lon NUM_SAMPLES
  let terrain0 := get_elevations cache lats lons
  let terrain1 := terrain0.set 0 p1.elevation_m
  let terrain_array := terrain1.set (terrain1.length - 1) p2.elevation_m
  let dl := compute_los_line p1.elevation_m p2.elevation_m distance_km
  let R_effective := REFRACTION_FACTOR * R_EARTH_KM
  let midpoint_distance_km := distance_km / 2
  let curvature_drop_m := (midpoint_distance_km * 1000) ^ 2 / (2 * R_effective * 1000)
  let is_clear := allLe terrain_array dl.2
  ⟨distance_km, los_limit_km, dl.1, terrain_array, dl.2, curvature_drop_m, is_clear⟩

/-- `LOSCalculator.is_line_of_sight_clear`: the clearance verdict of the
(lazily computed, here inlined) calculation. -/
def is_line_of_sight_clear (p1 p2 : Peak) (cache : Cache) (distance_km : ℚ)
    (sqrt : ℚ → ℚ) : Bool :=
  (calculate p1 p2 cache distance_km sqrt).is_clear

/-- `PeakPairFinder.get_peak_pairs`: the nested loop
`for i in range(n): for j in range(i+1, n)` keeping pairs whose distance
lies in the inclusive band. `dist` is the external `geopy` geodesic
distance used by `_calculate_distance_km`. -/
def get_peak_pairs (dist : Peak → Peak → ℚ) (peaks : List Peak)
    (min_distance_km max_distance_km : ℚ) : List (Peak × Peak) :=
  (List.range peaks.length).flatMap fun i =>
    (List.range' (i + 1) (peaks.length - (i + 1))).filterMap fun j =>
      let peak1 := peaks.getD i default
      let peak2 := peaks.getD j default
      let distance := dist peak1 peak2
      if min_distance_km ≤ distance ∧ distance ≤ max_distance_km then
        some (peak1, peak2)
      else none

/-- Index trace of `PeakPairFinder.get_peak_pairs`: the `(i, j)` loop
indices whose pair is emitted, in emission order. -/
def get_peak_pair_indices (dist : Peak → Peak → ℚ) (peaks : List Peak)
    (min_distance_km max_distance_km : ℚ) : List (Nat × Nat) :=
  (List.range peaks.length).flatMap fun i =>
    (List.range' (i + 1) (peaks.length - (i + 1))).filterMap fun j =>
      let peak1 := peaks.getD i default
      let peak2 := peaks.getD j default
      let distance := dist peak1 peak2
      if min_distance_km ≤ distance ∧ distance ≤ max_distance_km then
        some (i, j)
      else none

/-! ### Basic lemmas about the sampling primitives -/

theorem linspace_length (a b : ℚ) (n : Nat) : (linspace a b n).length = n := by
  unfold linspace
  rw [List.length_map, List.length_range]

theorem linspace_getD (a b : ℚ) {n k : Nat} (hk : k < n) :
    (linspace a b n).getD k 0 = a + (b - a) * k / ((n : ℚ) - 1) := by
  unfold linspace
  rw [List.getD_eq_getElem?_getD, List.getElem?_map, List.getElem?_range hk]
  rfl

theorem get_elevations_length (cache : Cache) (lats lons : List ℚ) :
    (get_elevations cache lats lons).length = min lats.length lons.length := by
  simp [get_elevations]

theorem get_elevations_getD (cache : Cache) (lats lons : List ℚ) {k : Nat}
    (h1 : k < lats.length) (h2 : k < lons.length) :
    (get_elevations cache lats lons).getD k 0 =
      get_elevation cache (lats.getD k 0) (lons.getD k 0) := by
  have hz : k < (lats.zip lons).length := by simp [List.length_zip]; omega
  simp only [get_elevations, List.getD_eq_getElem?_getD, List.getElem?_map]
  rw [List.getElem?_eq_getElem hz]
  have h1' := List.getElem?_eq_getElem h1
  have h2' := List.getElem?_eq_getElem h2
  simp [List.getElem_zip, List.getD_eq_getElem?_getD, h1', h2']

theorem get_elevation_nil (lat lon : ℚ) : get_elevation [] lat lon = 0 := rfl

theorem allLe_iff {xs ys : List ℚ} (h : xs.length = ys.length) :
    allLe xs ys = true ↔ ∀ k, k < xs.length → xs.getD k 0 ≤ ys.getD k 0 := by
  induction xs generalizing ys with
  | nil => simp [allLe]
  | cons x xs ih =>
    cases ys with
    | nil => simp at h
    | cons y ys =>
      have h' : xs.length = ys.length := by simpa using h
      constructor
      · intro hall k hk
        have hx : x ≤ y ∧ allLe xs ys = true := by
          simpa [allLe, List.all_cons] using hall
        cases k with
        | zero => simpa using hx.1
        | succ k =>
          have := ((ih h').1 hx.2) k (by simpa using hk)
          simpa using this
      · intro hpt
        have hx : x ≤ y := by simpa using hpt 0 (by simp)
        have hrest : allLe xs ys = true := (ih h').2 (by
          intro k hk
          have := hpt (k + 1) (by simpa using hk)
          simpa using this)
        simpa [allLe, List.all_cons, hx] using hrest

/-! ### Projections of `calculate` -/

theorem calculate_distance_km (p1 p2 : Peak) (cache : Cache) (D : ℚ) (s : ℚ → ℚ) :
    (calculate p1 p2 cache D s).distance_km = D := rfl

theorem calculate_los_limit_km (p1 p2 : Peak) (cache : Cache) (D : ℚ) (s : ℚ → ℚ) :
    (calculate p1 p2 cache D s).los_limit_km =
      3.57 * (s p1.elevation_m + s p2.elevation_m) := rfl

theorem calculate_curvature_drop_m (p1 p2 : Peak) (cache : Cache) (D : ℚ) (s : ℚ → ℚ) :
    (calculate p1 p2 cache D s).curvature_drop_m =
      (D / 2 * 1000) ^ 2 / (2 * (REFRACTION_FACTOR * R_EARTH_KM) * 1000) := rfl

theorem calculate_terrain_array (p1 p2 : Peak) (cache : Cache) (D : ℚ) (s : ℚ → ℚ) :
    (calculate p1 p2 cache D s).terrain_array =
      ((get_elevations cache (linspace p1.lat p2.lat NUM_SAMPLES)
          (linspace p1.lon p2.lon NUM_SAMPLES)).set 0 p1.elevation_m).set
        (((get_elevations cache (linspace p1.lat p2.lat NUM_SAMPLES)
          (linspace p1.lon p2.lon NUM_SAMPLES)).set 0 p1.elevation_m).length - 1)
        p2.elevation_m := rfl

theorem calculate_distances (p1 p2 : Peak) (cache : Cache) (D : ℚ) (s : ℚ → ℚ) :
    (calculate p1 p2 cache D s).distances =
      (compute_los_line p1.elevation_m p2.elevation_m D).1 := rfl

theorem calculate_los_line (p1 p2 : Peak) (cache : Cache) (D : ℚ) (s : ℚ → ℚ) :
    (calculate p1 p2 cache D s).los_line =
      (compute_los_line p1.elevation_m p2.elevation_m D).2 := rfl

theorem calculate_is_clear (p1 p2 : Peak) (cache : Cache) (D : ℚ) (s : ℚ → ℚ) :
    (calculate p1 p2 cache D s).is_clear =
      allLe (calculate p1 p2 cache D s).terrain_array
        (calculate p1 p2 cache D s).los_line := rfl

/-! ### Lengths and pointwise values of the computed profiles -/

theorem terrain_array_length (p1 p2 : Peak) (cache : Cache) (D : ℚ) (s : ℚ → ℚ) :
    (calculate p1 p2 cache D s).terrain_array.length = NUM_SAMPLES := by
  rw [calculate_terrain_array, List.length_set, List.length_set,
    get_elevations_length, linspace_length, linspace_length]
  rfl

theorem compute_los_line_fst_length (e1 e2 D : ℚ) :
    (compute_los_line e1 e2 D).1.length = NUM_SAMPLES := by
  unfold compute_los_line
  exact linspace_length 0 D NUM_SAMPLES

theorem compute_los_line_snd_length (e1 e2 D : ℚ) :
    (compute_los_line e1 e2 D).2.length = NUM_SAMPLES := by
  unfold compute_los_line
  rw [List.length_zipWith, List.length_map, List.length_map, linspace_length]
  rfl

theorem compute_los_line_fst_getD (e1 e2 D : ℚ) {k : Nat} (hk : k < NUM_SAMPLES) :
    (compute_los_line e1 e2 D).1.getD k 0 =
      0 + (D - 0) * (k : ℚ) / ((NUM_SAMPLES : ℚ) - 1) := by
  unfold compute_los_line
  exact linspace_getD 0 D hk

theorem compute_los_line_snd_getD (e1 e2 D : ℚ) {k : Nat} (hk : k < NUM_SAMPLES) :
    (compute_los_line e1 e2 D).2.getD k 0 =
      (e1 + (e2 - e1) * (((compute_los_line e1 e2 D).1.getD k 0) / D)) +
        (-(((compute_los_line e1 e2 D).1.getD k 0) * 1000) *
          ((D - ((compute_los_line e1 e2 D).1.getD k 0)) * 1000) /
          (2 * (REFRACTION_FACTOR * R_EARTH_KM) * 1000)) := by
  have hk' : k < (linspace 0 D NUM_SAMPLES).length := by
    rw [linspace_length]; exact hk
  conv_lhs => unfold compute_los_line
  rw [List.getD_eq_getElem?_getD, List.getElem?_zipWith, List.getElem?_map,
    List.getElem?_map, List.getElem?_eq_getElem hk']
  have : (compute_los_line e1 e2 D).1.getD k 0 =
      (linspace 0 D NUM_SAMPLES).get ⟨k, hk'⟩ := by
    unfold compute_los_line
    rw [List.getD_eq_getElem?_getD, List.getElem?_eq_getElem hk']
    rfl
  rw [this]
  rfl

theorem terrain_array_getD (p1 p2 : Peak) (cache : Cache) (D : ℚ) (s : ℚ → ℚ)
    {k : Nat} (hk : k < NUM_SAMPLES) :
    (calculate p1 p2 cache D s).terrain_array.getD k 0 =
      if k = 0 then p1.elevation_m
      else if k = NUM_SAMPLES - 1 then p2.elevation_m
      else get_elevation cache ((linspace p1.lat p2.lat NUM_SAMPLES).getD k 0)
        ((linspace p1.lon p2.lon NUM_SAMPLES).getD k 0) := by
  have hbase : (get_elevations cache (linspace p1.lat p2.lat NUM_SAMPLES)
      (linspace p1.lon p2.lon NUM_SAMPLES)).length = NUM_SAMPLES := by
    rw [get_elevations_length, linspace_length, linspace_length]
    rfl
  have hlen1 : ((get_elevations cache (linspace p1.lat p2.lat NUM_SAMPLES)
      (linspace p1.lon p2.lon NUM_SAMPLES)).set 0 p1.elevation_m).length = NUM_SAMPLES := by
    rw [List.length_set, hbase]
  rw [calculate_terrain_array, hlen1]
  by_cases h199 : k = NUM_SAMPLES - 1
  · subst h199
    rw [List.getD_eq_getElem?_getD, List.getElem?_set_self (by rw [List.length_set, hbase]; decide)]
    simp [show ¬(NUM_SAMPLES - 1 = 0) by decide]
  · by_cases h0 : k = 0
    · subst h0
      rw [List.getD_eq_getElem?_getD, List.getElem?_set_ne (by omega),
        List.getElem?_set_self (by rw [hbase]; exact hk)]
      simp
    · rw [List.getD_eq_getElem?_getD, List.getElem?_set_ne (by omega),
        List.getElem?_set_ne (by omega), if_neg h0, if_neg h199,
        ← List.getD_eq_getElem?_getD]
      exact get_elevations_getD cache _ _ (by rw [linspace_length]; exact hk)
        (by rw [linspace_length]; exact hk)

/-- Clearance characterization: the verdict is `true` iff terrain does not
exceed the sight line at any of the `NUM_SAMPLES` stations. -/
theorem is_clear_iff (p1 p2 : Peak) (cache : Cache) (D : ℚ) (s : ℚ → ℚ) :
    (calculate p1 p2 cache D s).is_clear = true ↔
      ∀ k, k < NUM_SAMPLES →
        (calculate p1 p2 cache D s).terrain_array.getD k 0 ≤
          (calculate p1 p2 cache D s).los_line.getD k 0 := by
  rw [calculate_is_clear,
    allLe_iff (by rw [terrain_array_length, calculate_los_line, compute_los_line_snd_length]),
    terrain_array_length]

/-! ### Concrete peaks used as test inputs -/

/-- Example peak from the module docstring of `calculate_los.py`. -/
def pikes : Peak := ⟨"Pikes Peak", 38.8409, -105.0423, 4302⟩

/-! ### Claim theorems -/

/-- C1: for every evaluation of a Point pair, the clearance verdict is `true`
if and only if the terrain elevation is at most the sight-line elevation at
every one of the `NUM_SAMPLES` sampled stations (a tie counts as clear). -/
theorem c1_clear_iff_no_station_pierces (p1 p2 : Peak) (cache : Cache) (D : ℚ)
    (s : ℚ → ℚ) :
    is_line_of_sight_clear p1 p2 cache D s = true ↔
      ∀ k, k < NUM_SAMPLES →
        (calculate p1 p2 cache D s).terrain_array.getD k 0 ≤
          (calculate p1 p2 cache D s).los_line.getD k 0 :=
  is_clear_iff p1 p2 cache D s

/-- Witness for C1 at a concrete input. -/
theorem c1_clear_iff_no_station_pierces_witness :
    is_line_of_sight_clear pikes pikes [] 0 (fun q => q) = true ↔
      ∀ k, k < NUM_SAMPLES →
        (calculate pikes pikes [] 0 (fun q => q)).terrain_array.getD k 0 ≤
          (calculate pikes pikes [] 0 (fun q => q)).los_line.getD k 0 :=
  c1_clear_iff_no_station_pierces pikes pikes [] 0 (fun q => q)

/-- C2: for positive distance `D`, the sight line at each sampled
along-path distance `d` is the linear interpolation of the endpoint
elevations at `d` minus the curvature drop
`(d·1000)·((D−d)·1000) / (2·((4/3)·6371·1000))` (km converted to m before
dividing, effective radius = (4/3) × 6371 km). -/
theorem c2_sight_line_formula (p1 p2 : Peak) (cache : Cache) (D : ℚ)
    (s : ℚ → ℚ) (hD : 0 < D) :
    ∀ k, k < NUM_SAMPLES →
      (calculate p1 p2 cache D s).los_line.getD k 0 =
        (p1.elevation_m + (p2.elevation_m - p1.elevation_m) *
            ((calculate p1 p2 cache D s).distances.getD k 0 / D)) -
          ((calculate p1 p2 cache D s).distances.getD k 0 * 1000) *
            ((D - (calculate p1 p2 cache D s).distances.getD k 0) * 1000) /
            (2 * (4 / 3 * 6371 * 1000)) := by
  intro k hk
  rw [calculate_los_line, calculate_distances, compute_los_line_snd_getD _ _ _ hk]
  simp only [REFRACTION_FACTOR, R_EARTH_KM]
  ring

/-- Witness for C2 at a concrete input and station. -/
theorem c2_sight_line_formula_witness :
    (calculate pikes pikes [] 50 (fun q => q)).los_line.getD 3 0 =
      (pikes.elevation_m + (pikes.elevation_m - pikes.elevation_m) *
          ((calculate pikes pikes [] 50 (fun q => q)).distances.getD 3 0 / 50)) -
        ((calculate pikes pikes [] 50 (fun q => q)).distances.getD 3 0 * 1000) *
          ((50 - (calculate pikes pikes [] 50 (fun q => q)).distances.getD 3 0) * 1000) /
          (2 * (4 / 3 * 6371 * 1000)) :=
  c2_sight_line_formula pikes pikes [] 50 (fun q => q) (by norm_num) 3 (by decide)

/-- C3 (evidence): evaluated on the identical pair (`pikes`, `pikes`) at
geodesic distance 0, the embedded engine raises nothing and still returns a
fully populated result — its only degenerate behavior is the unguarded
division by the zero path length inside the interpolation. -/
theorem c3_zero_distance_still_returns_result :
    (calculate pikes pikes [] 0 (fun q => q)).distance_km = 0 ∧
    (calculate pikes pikes [] 0 (fun q => q)).terrain_array.length = NUM_SAMPLES ∧
    (calculate pikes pikes [] 0 (fun q => q)).terrain_array.getD 0 0 = 4302 := by
  refine ⟨rfl, terrain_array_length pikes pikes [] 0 (fun q => q), ?_⟩
  rw [terrain_array_getD pikes pikes [] 0 (fun q => q) (by decide)]
  rfl

/-- C7: after sampling, the first terrain sample equals the first Point's
own elevation and the last (index `NUM_SAMPLES - 1`) equals the second
Point's, whatever the cache returned. -/
theorem c7_endpoint_samples_forced (p1 p2 : Peak) (cache : Cache) (D : ℚ)
    (s : ℚ → ℚ) :
    (calculate p1 p2 cache D s).terrain_array.length = NUM_SAMPLES ∧
    (calculate p1 p2 cache D s).terrain_array.getD 0 0 = p1.elevation_m ∧
    (calculate p1 p2 cache D s).terrain_array.getD (NUM_SAMPLES - 1) 0 =
      p2.elevation_m := by
  refine ⟨terrain_array_length p1 p2 cache D s, ?_, ?_⟩
  · rw [terrain_array_getD p1 p2 cache D s (by decide)]
    simp
  · rw [terrain_array_getD p1 p2 cache D s (by decide)]
    simp [NUM_SAMPLES]

/-- C8: the reported midpoint curvature drop is exactly
`(D/2·1000)² / (2·(4/3)·6371·1000)` meters, for every pair (in particular
it does not depend on the elevations at all). -/
theorem c8_midpoint_curvature_drop (p1 p2 : Peak) (cache : Cache) (D : ℚ)
    (s : ℚ → ℚ) :
    (calculate p1 p2 cache D s).curvature_drop_m =
      (D / 2 * 1000) ^ 2 / (2 * (4 / 3) * 6371 * 1000) := by
  rw [calculate_curvature_drop_m]
  simp only [REFRACTION_FACTOR, R_EARTH_KM]
  ring

/-- Two 1 m peaks 8 km apart (flat sea-level terrain, empty cache): the
8 km separation exceeds the 3.57·(√1+√1) = 7.14 km horizon limit while the
sight line clears the terrain. -/
def peakA : Peak := ⟨"A", 0, 0, 1⟩

/-- Second endpoint of the flat scenario; see `peakA`. -/
def peakB : Peak := ⟨"B", 0, 1, 1⟩

/-- In the flat scenario the verdict is clear, whatever function is used
for the square root in the (independent) horizon statistic. -/
theorem flat_is_clear (s : ℚ → ℚ) :
    (calculate peakA peakB [] 8 s).is_clear = true := by
  rw [is_clear_iff]
  intro k hk
  rw [terrain_array_getD peakA peakB [] 8 s hk, calculate_los_line,
    compute_los_line_snd_getD _ _ _ hk, compute_los_line_fst_getD _ _ _ hk]
  simp only [peakA, peakB, REFRACTION_FACTOR, R_EARTH_KM, get_elevation_nil]
  by_cases h0 : k = 0
  · subst h0
    norm_num
  · by_cases h199 : k = NUM_SAMPLES - 1
    · subst h199
      norm_num [NUM_SAMPLES]
    · rw [if_neg h0, if_neg h199]
      generalize (0 + (8 - 0) * (k : ℚ) / ((NUM_SAMPLES : ℚ) - 1)) = d
      have h1 : d * (8 - d) ≤ 16 := by nlinarith [sq_nonneg (d - 4)]
      have h2 : -(d * 1000) * ((8 - d) * 1000) / (2 * (4 / 3 * 6371) * 1000) =
          -(d * (8 - d)) * (375 / 6371) := by ring
      rw [h2]
      nlinarith [h1]

/-- C10: the verdict never depends on the horizon-limit statistic: the
statistic is a function of the square-root routine and the endpoint
elevations alone, the verdict is invariant under changing that routine,
and in the flat scenario (`peakA`/`peakB`, both 1 m, so their exact square
roots are 1) the distance 8 km exceeds the horizon limit 7.14 km yet the
verdict is still clear. -/
theorem c10_horizon_limit_is_statistic_only :
    (∀ (p1 p2 : Peak) (cache : Cache) (D : ℚ) (s s' : ℚ → ℚ),
        (calculate p1 p2 cache D s).is_clear = (calculate p1 p2 cache D s').is_clear) ∧
    (∀ (p1 p2 : Peak) (cache : Cache) (D : ℚ) (s : ℚ → ℚ),
        (calculate p1 p2 cache D s).los_limit_km =
          3.57 * (s p1.elevation_m + s p2.elevation_m)) ∧
    (calculate peakA peakB [] 8 (fun _ => 1)).los_limit_km <
      (calculate peakA peakB [] 8 (fun _ => 1)).distance_km ∧
    (calculate peakA peakB [] 8 (fun _ => 1)).is_clear = true := by
  refine ⟨fun _ _ _ _ _ _ => rfl, fun _ _ _ _ _ => rfl, ?_, flat_is_clear _⟩
  rw [calculate_los_limit_km, calculate_distance_km]
  norm_num [peakA, peakB]

/-- Auxiliary monotonicity of the straight-line interpolation in its first
endpoint. -/
theorem straight_mono_left (e1 e1' e2 c : ℚ) (h : e1 ≤ e1') (hc2 : c ≤ 1) :
    e1 + (e2 - e1) * c ≤ e1' + (e2 - e1') * c := by
  nlinarith [mul_nonneg (sub_nonneg.2 h) (sub_nonneg.2 hc2)]

/-- Auxiliary monotonicity of the straight-line interpolation in its second
endpoint. -/
theorem straight_mono_right (e1 e2 e2' c : ℚ) (h : e2 ≤ e2') (hc1 : 0 ≤ c) :
    e1 + (e2 - e1) * c ≤ e1 + (e2' - e1) * c := by
  nlinarith [mul_nonneg (sub_nonneg.2 h) hc1]

/-- C9: with coordinates, the other endpoint, the cache and the distance
held fixed, raising either endpoint's elevation never turns a clear verdict
into blocked. -/
theorem c9_raising_endpoint_preserves_clear (p1 p2 : Peak) (cache : Cache)
    (D : ℚ) (s : ℚ → ℚ) (e' : ℚ) (hD : 0 < D) :
    ((calculate p1 p2 cache D s).is_clear = true → p1.elevation_m ≤ e' →
      (calculate ⟨p1.name, p1.lat, p1.lon, e'⟩ p2 cache D s).is_clear = true) ∧
    ((calculate p1 p2 cache D s).is_clear = true → p2.elevation_m ≤ e' →
      (calculate p1 ⟨p2.name, p2.lat, p2.lon, e'⟩ cache D s).is_clear = true) := by
  have hcast : ((NUM_SAMPLES : ℚ) - 1) = 199 := by norm_num [NUM_SAMPLES]
  constructor
  · intro hclear hle
    rw [is_clear_iff] at hclear ⊢
    intro k hk
    have hold := hclear k hk
    rw [terrain_array_getD p1 p2 cache D s hk, calculate_los_line,
      compute_los_line_snd_getD _ _ _ hk, compute_los_line_fst_getD _ _ _ hk] at hold
    rw [terrain_array_getD ⟨p1.name, p1.lat, p1.lon, e'⟩ p2 cache D s hk,
      calculate_los_line, compute_los_line_snd_getD _ _ _ hk,
      compute_los_line_fst_getD _ _ _ hk]
    dsimp only
    by_cases h0 : k = 0
    · subst h0
      norm_num
    · by_cases h199 : k = NUM_SAMPLES - 1
      · subst h199
        rw [if_neg h0, if_pos rfl] at hold ⊢
        rw [hcast]
        norm_num [NUM_SAMPLES]
        have hDD : D / D = 1 := div_self (ne_of_gt hD)
        rw [hDD]
        ring_nf
        norm_num
      · rw [if_neg h0, if_neg h199] at hold ⊢
        have hcD : (0 + (D - 0) * (k : ℚ) / ((NUM_SAMPLES : ℚ) - 1)) / D = (k : ℚ) / 199 := by
          rw [hcast]
          field_simp
          ring
        have hk199 : (k : ℚ) ≤ 199 := by
          have h200 := hk
          simp only [NUM_SAMPLES] at h200
          have : k ≤ 199 := by omega
          exact_mod_cast this
        have hc2 : (k : ℚ) / 199 ≤ 1 := by
          rw [div_le_one (by norm_num : (0:ℚ) < 199)]
          exact hk199
        have hmono := straight_mono_left p1.elevation_m e' p2.elevation_m
          ((k : ℚ) / 199) hle hc2
        rw [hcD] at hold ⊢
        linarith [hold, hmono]
  · intro hclear hle
    rw [is_clear_iff] at hclear ⊢
    intro k hk
    have hold := hclear k hk
    rw [terrain_array_getD p1 p2 cache D s hk, calculate_los_line,
      compute_los_line_snd_getD _ _ _ hk, compute_los_line_fst_getD _ _ _ hk] at hold
    rw [terrain_array_getD p1 ⟨p2.name, p2.lat, p2.lon, e'⟩ cache D s hk,
      calculate_los_line, compute_los_line_snd_getD _ _ _ hk,
      compute_los_line_fst_getD _ _ _ hk]
    dsimp only
    by_cases h0 : k = 0
    · subst h0
      norm_num
    · by_cases h199 : k = NUM_SAMPLES - 1
      · subst h199
        rw [if_neg h0, if_pos rfl] at hold ⊢
        rw [hcast]
        norm_num [NUM_SAMPLES]
        have hDD : D / D = 1 := div_self (ne_of_gt hD)
        rw [hDD]
        ring_nf
        norm_num
      · rw [if_neg h0, if_neg h199] at hold ⊢
        have hcD : (0 + (D - 0) * (k : ℚ) / ((NUM_SAMPLES : ℚ) - 1)) / D = (k : ℚ) / 199 := by
          rw [hcast]
          field_simp
          ring
        have hc1 : (0:ℚ) ≤ (k : ℚ) / 199 := by positivity
        have hmono := straight_mono_right p1.elevation_m p2.elevation_m e'
          ((k : ℚ) / 199) hle hc1
        rw [hcD] at hold ⊢
        linarith [hold, hmono]

/-- Witness for C9: in the flat scenario, raising the first endpoint from
1 m to 2 m keeps the verdict clear. -/
theorem c9_raising_endpoint_preserves_clear_witness :
    (calculate ⟨peakA.name, peakA.lat, peakA.lon, 2⟩ peakB [] 8 (fun _ => 1)).is_clear
      = true :=
  (c9_raising_endpoint_preserves_clear peakA peakB [] 8 (fun _ => 1) 2
      (by norm_num)).1 (flat_is_clear (fun _ => 1)) (by norm_num [peakA])

/-! ### Quantization lemmas for the cache adapter -/

/-- Banker's rounding lands within one half of the argument. -/
theorem roundHalfEven_abs (x : ℚ) : |x - roundHalfEven x| ≤ 1/2 := by
  unfold roundHalfEven
  have h1 := Int.floor_le x
  have h2 := Int.lt_floor_add_one x
  split_ifs with ha hb hc <;> rw [abs_le] <;> constructor <;> push_cast <;>
    push_cast at ha <;> linarith

/-- Rounding zero gives zero. -/
theorem roundHalfEven_zero : roundHalfEven 0 = 0 := by
  unfold roundHalfEven
  norm_num

/-- The quantized coordinate is a multiple of the grid resolution that lies
within half a grid step of the query coordinate. -/
theorem quantize_nearest (x : ℚ) :
    |x - quantize x| ≤ grid_resolution / 2 ∧
      ∃ m : ℤ, quantize x = m * grid_resolution := by
  constructor
  · have h := roundHalfEven_abs (x / grid_resolution)
    have hx : x - quantize x =
        (x / grid_resolution - roundHalfEven (x / grid_resolution)) * grid_resolution := by
      unfold quantize grid_resolution
      ring
    rw [hx, abs_mul]
    have hg : |grid_resolution| = grid_resolution := by norm_num [grid_resolution]
    rw [hg]
    have := mul_le_mul_of_nonneg_right h
      (show (0:ℚ) ≤ grid_resolution by norm_num [grid_resolution])
    linarith
  · exact ⟨_, rfl⟩

/-- Quantizing the origin gives the origin. -/
theorem quantize_zero : quantize 0 = 0 := by
  unfold quantize
  rw [zero_div, roundHalfEven_zero]
  norm_num

/-- Formatting of the zero coordinate. -/
theorem format6_zero : format6 0 = "0.000000" := by
  unfold format6
  rw [show (0:ℚ) * 1000000 = 0 by ring, roundHalfEven_zero,
    if_neg (lt_irrefl (0:ℚ))]
  rfl

/-- Key of the quantized origin. -/
theorem coordKey_quantize_zero :
    coordKey (quantize 0) (quantize 0) = "0.000000,0.000000" := by
  rw [quantize_zero, coordKey, format6_zero]
  rfl

/-- C6: the elevation lookup is total: it quantizes both coordinates to the
nearest grid multiple, returns the cached entry under the quantized key if
present, otherwise the entry under the exact key, otherwise `0` — in
particular every lookup on an empty cache returns `0`. -/
theorem c6_lookup_quantize_then_fallback (cache : Cache) (lat lon : ℚ) :
    (get_elevation [] lat lon = 0) ∧
    (∀ e, cache.lookup (coordKey (quantize lat) (quantize lon)) = some e →
      get_elevation cache lat lon = e) ∧
    (cache.lookup (coordKey (quantize lat) (quantize lon)) = none →
      ∀ e, cache.lookup (coordKey lat lon) = some e →
        get_elevation cache lat lon = e) ∧
    (cache.lookup (coordKey (quantize lat) (quantize lon)) = none →
      cache.lookup (coordKey lat lon) = none →
      get_elevation cache lat lon = 0) ∧
    (|lat - quantize lat| ≤ grid_resolution / 2 ∧
      |lon - quantize lon| ≤ grid_resolution / 2) ∧
    (∃ mlat mlon : ℤ, quantize lat = mlat * grid_resolution ∧
      quantize lon = mlon * grid_resolution) := by
  obtain ⟨hnlat, mlat, hmlat⟩ := quantize_nearest lat
  obtain ⟨hnlon, mlon, hmlon⟩ := quantize_nearest lon
  refine ⟨rfl, ?_, ?_, ?_, ⟨hnlat, hnlon⟩, ⟨mlat, mlon, hmlat, hmlon⟩⟩
  · intro e he
    simp [get_elevation, he]
  · intro hq e he
    simp [get_elevation, hq, he]
  · intro hq he
    simp [get_elevation, hq, he]

/-- Witness for C6: a one-entry cache keyed by the quantized origin is hit,
and the empty cache returns 0. -/
theorem c6_lookup_quantize_then_fallback_witness :
    get_elevation [("0.000000,0.000000", 42)] 0 0 = 42 ∧
      get_elevation [] 0 0 = 0 :=
  ⟨(c6_lookup_quantize_then_fallback [("0.000000,0.000000", 42)] 0 0).2.1 42
      (by rw [coordKey_quantize_zero]; rfl),
    (c6_lookup_quantize_then_fallback [] 0 0).1⟩

/-! ### Pair search -/

/-- C4: the pair search emits exactly the index pairs `(i, j)` with
`i < j` whose distance lies in the inclusive band, in lexicographic order
of `(i, j)`, with no duplicates (and, since `i < j`, no self pairs); the
returned peak pairs are those index pairs read back through the input
sequence. -/
theorem c4_pair_search_exact_band (dist : Peak → Peak → ℚ) (peaks : List Peak)
    (minD maxD : ℚ) (hband : minD ≤ maxD) :
    (get_peak_pairs dist peaks minD maxD =
      (get_peak_pair_indices dist peaks minD maxD).map
        (fun ij => (peaks.getD ij.1 default, peaks.getD ij.2 default))) ∧
    (∀ i j, (i, j) ∈ get_peak_pair_indices dist peaks minD maxD ↔
      (i < j ∧ j < peaks.length ∧
        minD ≤ dist (peaks.getD i default) (peaks.getD j default) ∧
        dist (peaks.getD i default) (peaks.getD j default) ≤ maxD)) ∧
    List.Pairwise (fun p q : Nat × Nat => p.1 < q.1 ∨ (p.1 = q.1 ∧ p.2 < q.2))
      (get_peak_pair_indices dist peaks minD maxD) ∧
    (get_peak_pair_indices dist peaks minD maxD).Nodup := by
  have ite_some_eq : ∀ {α : Type} {c : Prop} [Decidable c] {p u : α},
      (if c then some p else none) = some u → c ∧ p = u := by
    intro α c inst p u h
    split_ifs at h with hc
    exact ⟨hc, Option.some.inj h⟩
  have hpw : List.Pairwise (fun p q : Nat × Nat => p.1 < q.1 ∨ (p.1 = q.1 ∧ p.2 < q.2))
      (get_peak_pair_indices dist peaks minD maxD) := by
    unfold get_peak_pair_indices
    rw [List.pairwise_flatMap]
    constructor
    · intro a _
      refine List.Pairwise.filterMap _ ?_ (List.pairwise_lt_range' (a + 1) _ 1 (by norm_num))
      intro x y hxy u hu v hv
      simp only [Option.mem_def] at hu hv
      obtain ⟨-, rfl⟩ := ite_some_eq hu
      obtain ⟨-, rfl⟩ := ite_some_eq hv
      exact Or.inr ⟨rfl, hxy⟩
    · refine List.Pairwise.imp ?_ (List.pairwise_lt_range peaks.length)
      intro a b hab u hu v hv
      simp only [List.mem_filterMap] at hu hv
      obtain ⟨x, -, hx⟩ := hu
      obtain ⟨y, -, hy⟩ := hv
      obtain ⟨-, rfl⟩ := ite_some_eq hx
      obtain ⟨-, rfl⟩ := ite_some_eq hy
      exact Or.inl hab
  refine ⟨?_, ?_, hpw, ?_⟩
  · unfold get_peak_pairs get_peak_pair_indices
    rw [List.map_flatMap]
    refine congrArg (List.flatMap (List.range peaks.length)) (funext fun i => ?_)
    rw [List.map_filterMap]
    refine congrArg (fun f => List.filterMap f (List.range' (i + 1) (peaks.length - (i + 1))))
      (funext fun j => ?_)
    by_cases h : minD ≤ dist (peaks.getD i default) (peaks.getD j default) ∧
        dist (peaks.getD i default) (peaks.getD j default) ≤ maxD
    · simp [h]
    · simp [h]
  · intro i j
    unfold get_peak_pair_indices
    simp only [List.mem_flatMap, List.mem_filterMap, List.mem_range, List.mem_range'_1]
    constructor
    · rintro ⟨a, ha, b, ⟨hb1, hb2⟩, hsome⟩
      obtain ⟨hcond, heq⟩ := ite_some_eq hsome
      cases heq
      exact ⟨by omega, by omega, hcond.1, hcond.2⟩
    · rintro ⟨hij, hjn, h1, h2⟩
      exact ⟨i, by omega, j, ⟨by omega, by omega⟩, by rw [if_pos ⟨h1, h2⟩]⟩
  · exact hpw.imp (fun h => by
      rintro rfl
      rcases h with h | ⟨-, h⟩ <;> exact absurd h (lt_irrefl _))

/-- The three-summit worked example: mutual distances 100, 400 and 450 km. -/
def peaksEx : List Peak :=
  [⟨"P0", 0, 0, 4000⟩, ⟨"P1", 0, 1, 4000⟩, ⟨"P2", 1, 0, 4000⟩]

/-- Distance table for `peaksEx` (standing in for the external geodesic
distance). -/
def distEx (a b : Peak) : ℚ :=
  if a.name = "P0" ∧ b.name = "P1" then 100
  else if a.name = "P0" ∧ b.name = "P2" then 400
  else if a.name = "P1" ∧ b.name = "P2" then 450
  else 0

/-- Witness for C4: with band [300, 500] the pair at 400 km is kept and the
pair at 100 km is dropped. -/
theorem c4_pair_search_exact_band_witness :
    ((0, 2) ∈ get_peak_pair_indices distEx peaksEx 300 500) ∧
    ((0, 1) ∉ get_peak_pair_indices distEx peaksEx 300 500) := by
  constructor
  · refine ((c4_pair_search_exact_band distEx peaksEx 300 500 (by norm_num)).2.1 0 2).2
      ⟨by norm_num, by norm_num [peaksEx], ?_, ?_⟩ <;>
      · norm_num [peaksEx, distEx]
        rw [if_neg (by decide)]
        norm_num
  · intro hmem
    have h := ((c4_pair_search_exact_band distEx peaksEx 300 500
      (by norm_num)).2.1 0 1).1 hmem
    rcases h with ⟨-, -, h1, -⟩
    norm_num [peaksEx, distEx] at h1

/-- C5 (evidence): with an inverted band (`min > max`) the embedded pair
search raises nothing and silently returns the empty list. -/
theorem c5_inverted_band_silently_empty (dist : Peak → Peak → ℚ)
    (peaks : List Peak) (minD maxD : ℚ) (h : maxD < minD) :
    get_peak_pairs dist peaks minD maxD = [] := by
  unfold get_peak_pairs
  rw [List.flatMap_eq_nil_iff]
  intro i _
  rw [List.filterMap_eq_nil_iff]
  intro j _
  rw [if_neg]
  rintro ⟨h1, h2⟩
  linarith

/-- Witness for C5 at a concrete inverted band. -/
theorem c5_inverted_band_silently_empty_witness :
    get_peak_pairs distEx peaksEx 500 300 = [] :=
  c5_inverted_band_silently_empty distEx peaksEx 500 300 (by norm_num)

end LosCalc
